import Mathlib

/-!
Shallow embedding of the acoustic-feature-analysis repository
(`src/speech_importer.py`, `src/database.py`, `src/similarity_analyzer.py`)
and proofs about the ingestion pipeline, the document-store operations and
the similarity analyzer.

Python floats are modelled as exact rationals (`ℚ`); `round(x, 6)` is
modelled by `round6` (round half to even on the 6th decimal digit, as
CPython's `round` does).  Pandas data frames are modelled as a list of
column names plus a list of `(timestamp, value-row)` pairs; MongoDB
collections are lists of `(objectId, document)` pairs with object ids
handed out by an increasing counter at insertion time, mirroring the
driver's behaviour of filling in `_id` on the inserted dictionaries.
Because `end` is a Lean keyword, the `end` field of intervals and
documents is named `stop` throughout.
-/

/-- Round half to even: the integer nearest to `q`, ties going to the even
integer (the rounding CPython's builtin `round` performs). -/
def roundHalfEven (q : ℚ) : ℤ :=
  let f := ⌊q⌋
  let r := q - (f : ℚ)
  if r < 1/2 then f
  else if 1/2 < r then f + 1
  else if f % 2 = 0 then f else f + 1

/-- Python's `round(x, 6)`: round to 6 decimal digits, ties to even. -/
def round6 (q : ℚ) : ℚ := (roundHalfEven (q * 1000000) : ℚ) / 1000000

/-- `strideEvery k l` keeps every `k`-th element of `l` starting with the
first one: the embedding of pandas `df.iloc[::k]` (for `k ≥ 1`). -/
def strideEvery (k : Nat) : List α → List α
  | [] => []
  | a :: rest => a :: strideEvery k (rest.drop (k - 1))
termination_by l => l.length
decreasing_by
  simp only [List.length_cons, List.length_drop]
  omega

/-- The three analysis levels accepted by `SpeechImporter.aggregate_features`. -/
inductive Level where
  | phoneme
  | word
  | recording
deriving DecidableEq

/-- A labeled time interval, as produced by the TextGrid parser
(`{"text": ..., "start": ..., "end": ...}`; `end` is named `stop`). -/
structure TgInterval where
  start : ℚ
  stop : ℚ
  text : String
deriving DecidableEq

/-- A frame-level feature matrix (pandas DataFrame indexed by frame start
time): column names plus `(timestamp, values)` rows. -/
structure FeatureMatrix where
  cols : List String
  rows : List (ℚ × List ℚ)
deriving DecidableEq

/-- `SpeechImporter.aggregate_features`: keep all rows at phoneme level,
every 5th row at word level, every 20th row at recording level. -/
def aggregateFeatures (interval_data : List (ℚ × List ℚ)) : Level → List (ℚ × List ℚ)
  | .phoneme => interval_data
  | .word => strideEvery 5 interval_data
  | .recording => strideEvery 20 interval_data

/-- The row selection `features[(features.index >= start) & (features.index <= end)]`
performed by `SpeechImporter.slice_features` for one interval. -/
def intervalSelection (features : FeatureMatrix) (iv : TgInterval) : List (ℚ × List ℚ) :=
  features.rows.filter (fun f => decide (iv.start ≤ f.1) && decide (f.1 ≤ iv.stop))

/-- Column-wise arithmetic mean of a list of equal-length rows
(pandas `DataFrame.mean()`); the column count is read off the first row. -/
def colMean (rows : List (List ℚ)) : List ℚ :=
  let ncols := (rows.head?.map List.length).getD 0
  (List.range ncols).map (fun j =>
    (rows.map (fun r => r.getD j 0)).sum / (rows.length : ℚ))

/-- One element of the list returned by `SpeechImporter.slice_features`. -/
structure IntervalFeatures where
  text : String
  start : ℚ
  stop : ℚ
  mean : List (String × ℚ)
  frame_values : List (ℚ × List ℚ)
deriving DecidableEq

/-- The dictionary `SpeechImporter.slice_features` appends for one
interval with a non-empty selection: rounded bounds, the rounded
column-wise mean of the (un-aggregated) selection, and the rounded
level-aggregated frame series. -/
def sliceEntry (features : FeatureMatrix) (iv : TgInterval) (level : Level) :
    IntervalFeatures :=
  let interval_data := intervalSelection features iv
  { text := iv.text
    start := round6 iv.start
    stop := round6 iv.stop
    mean := features.cols.zip ((colMean (interval_data.map Prod.snd)).map round6)
    frame_values := (aggregateFeatures interval_data level).map
      (fun f => (round6 f.1, f.2.map round6)) }

/-- `SpeechImporter.slice_features`: for each interval, select the frames
whose index lies in `[start, end]`, skip the interval when the selection is
empty (log and continue), and otherwise append the interval's entry. -/
def sliceFeatures (features : FeatureMatrix) (intervals : List TgInterval)
    (level : Level) : List IntervalFeatures :=
  intervals.filterMap (fun iv =>
    if (intervalSelection features iv).isEmpty then none
    else some (sliceEntry features iv level))

/-- The label exclusion set `EXCLUDED_LABELS` of `speech_importer.py`. -/
def EXCLUDED_LABELS : List String := ["<sil>", "SIL", ".sil", ".noise", ""]

/-- `SpeechImporter.clean_intervals`: drop intervals whose stripped label
is in the exclusion set. -/
def cleanIntervals (intervals : List TgInterval) : List TgInterval :=
  intervals.filter (fun iv => !EXCLUDED_LABELS.contains iv.text.trim)

/-- A stored document (the dictionaries built by `SpeechImporter.insert_data`
for all three collections); `parent_id` holds the object id of the parent
word document, or `none`.  The `end` field is named `stop`. -/
structure Doc where
  recording_id : String
  parent_id : Option ℕ
  text : String
  start : ℚ
  stop : ℚ
  duration : ℚ
  mean : List (String × ℚ)
  frame_values : List (ℚ × List ℚ)
deriving DecidableEq

/-- The document store: the three collections of `database.py` as lists of
`(objectId, document)` pairs, plus the next fresh object id. -/
structure DBState where
  recordings : List (ℕ × Doc)
  words : List (ℕ × Doc)
  phonemes : List (ℕ × Doc)
  nextId : ℕ
deriving DecidableEq

/-- `Database.insert_data`: raises `ValueError` on an empty batch or an
unknown collection name before touching any collection; otherwise appends
the documents, handing out fresh object ids (the driver fills `_id` into
the inserted dictionaries, returned here as the second component). -/
def dbInsertData (db : DBState) (collection_name : String) (data_list : List Doc) :
    Except String (DBState × List (ℕ × Doc)) :=
  if data_list.isEmpty then
    .error "Invalid data list. Must be a non-empty list."
  else if collection_name = "recordings" then
    let inserted := List.enumFrom db.nextId data_list
    .ok ({ db with recordings := db.recordings ++ inserted,
                   nextId := db.nextId + data_list.length }, inserted)
  else if collection_name = "words" then
    let inserted := List.enumFrom db.nextId data_list
    .ok ({ db with words := db.words ++ inserted,
                   nextId := db.nextId + data_list.length }, inserted)
  else if collection_name = "phonemes" then
    let inserted := List.enumFrom db.nextId data_list
    .ok ({ db with phonemes := db.phonemes ++ inserted,
                   nextId := db.nextId + data_list.length }, inserted)
  else
    .error ("Invalid collection name: " ++ collection_name ++
            ". Must be recordings, words, or phonemes.")

/-- `Database.recording_exists`: some recording document matches the id. -/
def recordingExists (db : DBState) (recording_id : String) : Bool :=
  db.recordings.any (fun d => d.2.recording_id == recording_id)

/-- The recording-level document of `SpeechImporter.insert_data`. -/
def mkRecordingDoc (file_name : String) (recording_duration : ℚ)
    (rf : IntervalFeatures) : Doc :=
  { recording_id := file_name, parent_id := none, text := "recording",
    start := 0, stop := recording_duration, duration := recording_duration,
    mean := rf.mean, frame_values := rf.frame_values }

/-- A word-level document of `SpeechImporter.insert_data`. -/
def mkWordDoc (file_name : String) (wf : IntervalFeatures) : Doc :=
  { recording_id := file_name, parent_id := none, text := wf.text,
    start := wf.start, stop := wf.stop, duration := wf.stop - wf.start,
    mean := wf.mean, frame_values := wf.frame_values }

/-- The phoneme parent lookup of `SpeechImporter.insert_data`: the object
id of the first inserted word document whose `[start, end)` span contains
the phoneme's start, else `none`. -/
def resolveParent (word_docs : List (ℕ × Doc)) (phoneme_start : ℚ) : Option ℕ :=
  (word_docs.find? (fun wd =>
    decide (wd.2.start ≤ phoneme_start) && decide (phoneme_start < wd.2.stop))).map Prod.fst

/-- A phoneme-level document of `SpeechImporter.insert_data`. -/
def mkPhonemeDoc (file_name : String) (word_docs : List (ℕ × Doc))
    (pf : IntervalFeatures) : Doc :=
  { recording_id := file_name, parent_id := resolveParent word_docs pf.start,
    text := pf.text, start := pf.start, stop := pf.stop,
    duration := pf.stop - pf.start, mean := pf.mean,
    frame_values := pf.frame_values }

/-- `SpeechImporter.insert_data`: build and persist the recording, word and
phoneme documents in that order.  A raised error (the `IndexError` on an
empty recording slice, or a `ValueError` from `Database.insert_data` on an
empty batch) aborts the remaining insertions but keeps the ones already
performed; the second component reports the propagated error message. -/
def importerInsertData (db : DBState) (file_name : String) (features : FeatureMatrix)
    (words phonemes : List TgInterval) : DBState × Option String :=
  let recording_duration := ((words.map (·.stop)).max?).getD 0
  let recording_features :=
    sliceFeatures features [⟨0, recording_duration, "recording"⟩] .recording
  match recording_features.head? with
  | none => (db, some "IndexError: list index out of range")
  | some rf =>
    match dbInsertData db "recordings" [mkRecordingDoc file_name recording_duration rf] with
    | .error e => (db, some e)
    | .ok (db1, _) =>
      let word_features := sliceFeatures features words .word
      let word_docs := word_features.map (mkWordDoc file_name)
      match dbInsertData db1 "words" word_docs with
      | .error e => (db1, some e)
      | .ok (db2, inserted_words) =>
        let phoneme_features := sliceFeatures features phonemes .phoneme
        let phoneme_docs := phoneme_features.map (mkPhonemeDoc file_name inserted_words)
        match dbInsertData db2 "phonemes" phoneme_docs with
        | .error e => (db2, some e)
        | .ok (db3, _) => (db3, none)

/-- Which stages of `SpeechImporter.process_single_recording` ran: whether
the TextGrid parser was invoked, whether feature extraction was invoked,
and whether `insert_data` was reached. -/
structure IngestTrace where
  parsed : Bool
  extracted : Bool
  inserted : Bool
deriving DecidableEq

/-- `SpeechImporter.process_single_recording`.  Parsing and feature
extraction are external collaborators, passed in as their results
(`Except` models the exceptions the code catches); the trace records which
stages were reached. -/
def processSingleRecording (db : DBState) (file_name : String)
    (parse_result : Except String (List TgInterval × List TgInterval))
    (extract_result : Except String FeatureMatrix) : DBState × IngestTrace :=
  if recordingExists db file_name then (db, ⟨false, false, false⟩)
  else
    match parse_result with
    | .error _ => (db, ⟨true, false, false⟩)
    | .ok (raw_words, raw_phonemes) =>
      let words := cleanIntervals raw_words
      let phonemes := cleanIntervals raw_phonemes
      if words.isEmpty || phonemes.isEmpty then (db, ⟨true, false, false⟩)
      else
        match extract_result with
        | .error _ => (db, ⟨true, true, false⟩)
        | .ok features =>
          ((importerInsertData db file_name features words phonemes).1, ⟨true, true, true⟩)

/-- Result of `Database.delete_recordings`: the early return on an empty id
list, the per-collection deleted-count report on success, or the
`RuntimeError` raised when a collection's `delete_many` fails (naming the
failing collection). -/
inductive DeleteOutcome where
  | noIds
  | report : List (String × ℕ) → DeleteOutcome
  | failure : String → DeleteOutcome
deriving DecidableEq

/-- `delete_many({recording_id: {$in: ids}})`: remaining documents. -/
def deleteMatching (docs : List (ℕ × Doc)) (recording_ids : List String) :
    List (ℕ × Doc) :=
  docs.filter (fun d => !recording_ids.contains d.2.recording_id)

/-- `delete_many({recording_id: {$in: ids}})`: the deleted count. -/
def countMatching (docs : List (ℕ × Doc)) (recording_ids : List String) : ℕ :=
  (docs.filter (fun d => recording_ids.contains d.2.recording_id)).length

/-- `Database.delete_recordings`: iterate the collections in insertion
order (phonemes, words, recordings), deleting matching documents and
recording the counts.  `pymongo_fails` is the driver-failure oracle: when
`delete_many` on a collection raises, the code raises `RuntimeError`,
keeping the deletions already performed and abandoning the counts. -/
def deleteRecordings (db : DBState) (recording_ids : List String)
    (pymongo_fails : String → Bool) : DBState × DeleteOutcome :=
  if recording_ids.isEmpty then (db, .noIds)
  else if pymongo_fails "phonemes" then (db, .failure "phonemes")
  else
    let c1 := countMatching db.phonemes recording_ids
    let db1 := { db with phonemes := deleteMatching db.phonemes recording_ids }
    if pymongo_fails "words" then (db1, .failure "words")
    else
      let c2 := countMatching db1.words recording_ids
      let db2 := { db1 with words := deleteMatching db1.words recording_ids }
      if pymongo_fails "recordings" then (db2, .failure "recordings")
      else
        let c3 := countMatching db2.recordings recording_ids
        let db3 := { db2 with recordings := deleteMatching db2.recordings recording_ids }
        (db3, .report [("phonemes", c1), ("words", c2), ("recordings", c3)])

/-- `needle == haystack[:len(needle)]`: the needle starts the haystack. -/
def listStartsWith [BEq α] : List α → List α → Bool
  | [], _ => true
  | _ :: _, [] => false
  | a :: as, b :: bs => a == b && listStartsWith as bs

/-- Python's substring test `needle in haystack`, on lists of characters:
the needle starts some suffix of the haystack. -/
def listContainsSub [BEq α] (needle : List α) : List α → Bool
  | [] => needle.isEmpty
  | b :: bs => listStartsWith needle (b :: bs) || listContainsSub needle bs

/-- The vowel allow-list `allowed_phonemes` of `Database.get_vowels`
(already lowercase; `\x7b` is the brace character appearing in the SAMPA
symbols). -/
def allowedPhonemes : List String :=
  ["i", "ii", "e", "ee", "\x7b", "\x7b\x7b", "y", "yy", "u",
   "uu", "o", "oo", "a", "aa", "2", "22", "7", "77"]

/-- The vowel filter of `Database.get_vowels`: Python's
`any(allowed_phoneme in phoneme_text for allowed_phoneme in allowed_phonemes)`
where `in` is substring containment; `phoneme_text` is already lowercased. -/
def vowelIncluded (phoneme_text : String) : Bool :=
  allowedPhonemes.any (fun a => listContainsSub a.toList phoneme_text.toList)

/-- Python's `str.lower()` on the character list of a string (the model of
`phoneme.get("text", "").lower()`). -/
def strToLower (s : String) : String := ⟨s.data.map Char.toLower⟩

/-- The per-phoneme payload assembled by `Database.get_vowels` (the
ingested phoneme documents carry no `word_text` field, so the code's
`phoneme.get("word_text", "Unknown")` yields the default). -/
structure VowelData where
  phoneme : String
  f1 : Option ℚ
  f2 : Option ℚ
  recording : String
  word : String
  start : ℚ
  stop : ℚ
  duration : ℚ
deriving DecidableEq

/-- The dictionary `Database.get_vowels` builds for one phoneme document. -/
def mkVowelData (d : Doc) : VowelData :=
  { phoneme := strToLower d.text
    f1 := d.mean.lookup "F1frequency_sma3nz"
    f2 := d.mean.lookup "F2frequency_sma3nz"
    recording := d.recording_id
    word := "Unknown"
    start := d.start, stop := d.stop, duration := d.duration }

/-- `Database.get_vowels`: fetch the phoneme documents whose `key` value
(the queried field: `_id`, `parent_id` or `recording_id`) lies in `ids`,
keep those whose lowercased text contains an allow-listed vowel symbol,
and emit `(key value, payload)` entries in cursor order (the source groups
these same entries into a per-id dictionary). -/
def getVowels {K : Type} [DecidableEq K] (phonemes_col : List (ℕ × Doc))
    (key : (ℕ × Doc) → K) (ids : List K) : List (K × VowelData) :=
  (phonemes_col.filter (fun p => ids.contains (key p))).filterMap (fun p =>
    if vowelIncluded (strToLower p.2.text) then some (key p, mkVowelData p.2) else none)

/-- Python dict assignment `d[k] = v`: overwrite in place when the key is
present, append otherwise. -/
def dictInsert (d : List (String × ℚ)) (k : String) (v : ℚ) : List (String × ℚ) :=
  if d.any (fun p => p.1 == k) then d.map (fun p => if p.1 == k then (k, v) else p)
  else d ++ [(k, v)]

/-- Python `d.update(other)`: assign every pair of `other` in order. -/
def dictUpdate (d other : List (String × ℚ)) : List (String × ℚ) :=
  other.foldl (fun acc p => dictInsert acc p.1 p.2) d

/-- The merged mean dictionary `combined_mean` of
`SimilarityAnalyzer.prepare_feature_matrix`: successive `update` calls over
the recording's mean dictionaries, later documents overwriting earlier
keys. -/
def combinedMean (feats : List (List (String × ℚ))) : List (String × ℚ) :=
  feats.foldl dictUpdate []

/-- `SimilarityAnalyzer.prepare_feature_matrix`: one row per entry of the
input mapping (in iteration order), carrying the merged mean dictionary;
`pd.DataFrame(rows).set_index("recording_id")` keeps exactly these rows. -/
def prepareFeatureMatrix (features_dict : List (String × List (List (String × ℚ)))) :
    List (String × List (String × ℚ)) :=
  features_dict.map (fun p => (p.1, combinedMean p.2))

/-!
Numerical part of `SimilarityAnalyzer.analyze_scores`.  The matrix
`df.values` is `X : Matrix (Fin N) (Fin n) ℚ` with `df.index` given by
`ids`.  Square roots of floats (used inside `StandardScaler`'s standard
deviation and inside `cosine_similarity`'s row norms) are modelled by an
arbitrary function `sqrt : ℚ → ℚ`; no property of it is needed for the
claims proved here.  `sklearn.decomposition.PCA` is an external library
whose fit runs an SVD; it is modelled by its documented contract:
`transform(Y) = (Y - mean_) @ components_.T` where `mean_` is the
column-wise mean of the data it was fitted on and `components_` has
orthonormal rows.  The fitted `components_` matrix is therefore passed in
as a parameter `V`; the situation of the claim, PCA retaining all
variance, is the hypothesis that `V` is square and orthogonal. -/

/-- Column-wise mean of a matrix (`numpy` `X.mean(axis=0)`). -/
def matColMean (N n : ℕ) (X : Matrix (Fin N) (Fin n) ℚ) : Fin n → ℚ :=
  fun j => (∑ i, X i j) / (N : ℚ)

/-- `StandardScaler`'s per-column `scale_`: the square root of the
population variance, with zeros replaced by 1
(`sklearn`'s `_handle_zeros_in_scale`). -/
def scalerScale (sqrt : ℚ → ℚ) (N n : ℕ) (X : Matrix (Fin N) (Fin n) ℚ) : Fin n → ℚ :=
  fun j =>
    let s := sqrt ((∑ i, (X i j - matColMean N n X j) ^ 2) / (N : ℚ))
    if s = 0 then 1 else s

/-- `StandardScaler.transform` after fitting on `X` itself: center each
column and divide by `scale_`. -/
def standardize (sqrt : ℚ → ℚ) (N n : ℕ) (X : Matrix (Fin N) (Fin n) ℚ) :
    Matrix (Fin N) (Fin n) ℚ :=
  fun i j => (X i j - matColMean N n X j) / scalerScale sqrt N n X j

/-- The row-norm factor of `sklearn`'s `cosine_similarity` (`normalize`):
the root of the squared norm, with zero norms replaced by 1. -/
def rowNormFactor (sqrt : ℚ → ℚ) (n : ℕ) (x : Fin n → ℚ) : ℚ :=
  let s := sqrt (∑ j, x j * x j)
  if s = 0 then 1 else s

/-- `cosine_similarity` of two rows: the dot product of the
norm-normalized rows. -/
def cosineSim (sqrt : ℚ → ℚ) (n : ℕ) (x y : Fin n → ℚ) : ℚ :=
  (∑ j, x j * y j) / (rowNormFactor sqrt n x * rowNormFactor sqrt n y)

/-- `PCA.transform` on one row, for the fitted components `V` and fitted
mean `m`: `(x - mean_) @ components_.T`. -/
def pcaTransformRow (n : ℕ) (V : Matrix (Fin n) (Fin n) ℚ) (m : Fin n → ℚ)
    (x : Fin n → ℚ) : Fin n → ℚ :=
  V.mulVec (fun j => x j - m j)

/-- The dictionary `idx_map = {rid: i for i, rid in enumerate(df.index)}`
followed by `idx_map[target]`: on duplicate index labels the last
enumeration index wins. -/
def idxMapLookup (N : ℕ) (ids : Fin N → String) (target : String) : Option (Fin N) :=
  ((List.finRange N).filter (fun i => ids i == target)).getLast?

/-- The comprehension `[(df.index[i], vals[i]) for i in range(N) if i != t]`. -/
def simPairs (N : ℕ) (ids : Fin N → String) (vals : Fin N → ℚ) (t : Fin N) :
    List (String × ℚ) :=
  ((List.finRange N).filter (fun i => decide (i ≠ t))).map (fun i => (ids i, vals i))

/-- Python's stable `list.sort(key=lambda x: x[1], reverse=True)`. -/
def sortDescendingBySecond (l : List (String × ℚ)) : List (String × ℚ) :=
  l.mergeSort (fun a b => decide (b.2 ≤ a.2))

/-- Python's stable `list.sort(key=lambda x: x[1])`. -/
def sortAscendingBySecond (l : List (String × ℚ)) : List (String × ℚ) :=
  l.mergeSort (fun a b => decide (a.2 ≤ b.2))

/-- `SimilarityAnalyzer.analyze_scores` with `method='cosine'`:
standardize, compute the target row's cosine similarities, drop the target
itself, stable-sort descending by similarity, return the first `top_n`
pairs.  `none` models the `ValueError` when the target is absent. -/
def analyzeScoresCosine (N n : ℕ) (sqrt : ℚ → ℚ) (X : Matrix (Fin N) (Fin n) ℚ)
    (ids : Fin N → String) (target : String) (top_n : ℕ) :
    Option (String × List (String × ℚ)) :=
  let Xs := standardize sqrt N n X
  match idxMapLookup N ids target with
  | none => none
  | some t =>
    let sims := fun i => cosineSim sqrt n (Xs t) (Xs i)
    some (target, (sortDescendingBySecond (simPairs N ids sims t)).take top_n)

/-- `SimilarityAnalyzer.analyze_scores` with `method='pca_cosine_distance'`:
`normalize_and_reduce` (standardize, then PCA fitted on the standardized
matrix — its fitted mean is the standardized matrix's column mean, its
fitted components are `V`), cosine similarities in PCA space, distances
`1 - similarity`, stable-sort ascending by distance, first `top_n` pairs.
`none` models both the `None`-sentinel path (empty data frame) and the
absent-target `ValueError`. -/
def analyzeScoresPcaDistance (N n : ℕ) (sqrt : ℚ → ℚ) (X : Matrix (Fin N) (Fin n) ℚ)
    (ids : Fin N → String) (V : Matrix (Fin n) (Fin n) ℚ) (target : String)
    (top_n : ℕ) : Option (String × List (String × ℚ)) :=
  if N = 0 ∨ n = 0 then none
  else
    let Xs := standardize sqrt N n X
    let Xp := fun i => pcaTransformRow n V (matColMean N n Xs) (Xs i)
    match idxMapLookup N ids target with
    | none => none
    | some t =>
      let dists := fun i => 1 - cosineSim sqrt n (Xp t) (Xp i)
      some (target, (sortAscendingBySecond (simPairs N ids dists t)).take top_n)

theorem strideEvery_length {α : Type} (k : ℕ) (hk : 0 < k) :
    ∀ l : List α, (strideEvery k l).length = (l.length + (k - 1)) / k := by
  intro l
  induction l using strideEvery.induct k with
  | case1 => simp [strideEvery, Nat.div_eq_of_lt (Nat.sub_lt hk Nat.one_pos)]
  | case2 a rest ih =>
    rw [strideEvery]
    simp only [List.length_cons, List.length_drop] at ih ⊢
    rw [ih]
    by_cases h : k - 1 ≤ rest.length
    · rw [Nat.sub_add_cancel h]
      have h1 : rest.length + 1 + (k - 1) = rest.length + k := by omega
      rw [h1, Nat.add_div_right _ hk, Nat.add_comm]
    · have h0 : rest.length - (k - 1) = 0 := by omega
      rw [h0, Nat.zero_add, Nat.div_eq_of_lt (Nat.sub_lt hk Nat.one_pos)]
      have h1 : rest.length + 1 + (k - 1) = rest.length + k := by omega
      rw [h1, Nat.add_div_right _ hk, Nat.div_eq_of_lt (by omega)]

theorem strideEvery_getElem? {α : Type} (k : ℕ) (hk : 0 < k) :
    ∀ (l : List α) (i : ℕ), (strideEvery k l)[i]? = l[k * i]? := by
  intro l
  induction l using strideEvery.induct k with
  | case1 => simp [strideEvery]
  | case2 a rest ih =>
    intro i
    rw [strideEvery]
    match i with
    | 0 => simp
    | i + 1 =>
      rw [List.getElem?_cons_succ, ih i, List.getElem?_drop]
      have h1 : k * (i + 1) = (k - 1 + k * i) + 1 := by
        have h2 : k * (i + 1) = k * i + k := by ring
        omega
      rw [h1, List.getElem?_cons_succ]

/-- C1: for a non-empty interval frame selection, `aggregate_features`
keeps all rows at level `phoneme`, every 5th row starting from the first
(hence `⌈N/5⌉ = (N+4)/5` rows) at level `word`, and every 20th row starting
from the first (hence `⌈N/20⌉ = (N+19)/20` rows) at level `recording`; at
every level the first retained row is the selection's first row. -/
theorem aggregate_features_stride (l : List (ℚ × List ℚ)) (i : ℕ) (h : l ≠ []) :
    aggregateFeatures l .phoneme = l
    ∧ (aggregateFeatures l .word).length = (l.length + 4) / 5
    ∧ (aggregateFeatures l .recording).length = (l.length + 19) / 20
    ∧ (aggregateFeatures l .word)[i]? = l[5 * i]?
    ∧ (aggregateFeatures l .recording)[i]? = l[20 * i]?
    ∧ (aggregateFeatures l .word).head? = l.head?
    ∧ (aggregateFeatures l .recording).head? = l.head? := by
  have hw : ∀ j, (strideEvery 5 l)[j]? = l[5 * j]? :=
    strideEvery_getElem? 5 (by omega) l
  have hr : ∀ j, (strideEvery 20 l)[j]? = l[20 * j]? :=
    strideEvery_getElem? 20 (by omega) l
  refine ⟨rfl, ?_, ?_, hw i, hr i, ?_, ?_⟩
  · exact strideEvery_length 5 (by omega) l
  · exact strideEvery_length 20 (by omega) l
  · rw [List.head?_eq_getElem?, List.head?_eq_getElem?]
    simpa using hw 0
  · rw [List.head?_eq_getElem?, List.head?_eq_getElem?]
    simpa using hr 0

/-- A six-row selection used to exercise `aggregate_features_stride`. -/
def sampleRows : List (ℚ × List ℚ) :=
  [(0, [1]), (1, [2]), (2, [3]), (3, [4]), (4, [5]), (5, [6])]

theorem aggregate_features_stride_witness :
    sampleRows ≠ []
    ∧ (aggregateFeatures sampleRows .phoneme = sampleRows
      ∧ (aggregateFeatures sampleRows .word).length = (sampleRows.length + 4) / 5
      ∧ (aggregateFeatures sampleRows .recording).length = (sampleRows.length + 19) / 20
      ∧ (aggregateFeatures sampleRows .word)[1]? = sampleRows[5 * 1]?
      ∧ (aggregateFeatures sampleRows .recording)[1]? = sampleRows[20 * 1]?
      ∧ (aggregateFeatures sampleRows .word).head? = sampleRows.head?
      ∧ (aggregateFeatures sampleRows .recording).head? = sampleRows.head?) :=
  ⟨by decide, aggregate_features_stride sampleRows 1 (by decide)⟩

theorem sliceFeatures_nil (features : FeatureMatrix) (level : Level) :
    sliceFeatures features [] level = [] := rfl

theorem sliceFeatures_cons (features : FeatureMatrix) (iv : TgInterval)
    (rest : List TgInterval) (level : Level) :
    sliceFeatures features (iv :: rest) level =
      if (intervalSelection features iv).isEmpty then sliceFeatures features rest level
      else sliceEntry features iv level :: sliceFeatures features rest level := by
  simp only [sliceFeatures, List.filterMap_cons]
  split <;> simp_all

/-- C2: `slice_features` selects exactly the frames with
`start ≤ t ≤ end` (both boundaries inclusive), and the stored mean is the
column-wise arithmetic mean over that full selection — the same value at
every analysis level, hence not the mean of the downsampled series — with
every value rounded to 6 decimal digits. -/
theorem slice_features_inclusive_mean (features : FeatureMatrix) (iv : TgInterval)
    (level : Level) (f : ℚ × List ℚ)
    (hne : intervalSelection features iv ≠ []) :
    (f ∈ intervalSelection features iv ↔
      f ∈ features.rows ∧ iv.start ≤ f.1 ∧ f.1 ≤ iv.stop)
    ∧ sliceFeatures features [iv] level = [sliceEntry features iv level]
    ∧ (sliceEntry features iv level).mean
      = features.cols.zip
          ((colMean ((intervalSelection features iv).map Prod.snd)).map round6)
    ∧ (sliceEntry features iv level).mean = (sliceEntry features iv .phoneme).mean := by
  refine ⟨?_, ?_, rfl, rfl⟩
  · simp [intervalSelection, List.mem_filter]
  · rw [sliceFeatures_cons, if_neg (by simpa using hne), sliceFeatures_nil]

theorem slice_features_inclusive_mean_witness :
    (intervalSelection ⟨["f"], sampleRows⟩ ⟨1, 3, "w"⟩ ≠ [])
    ∧ (((1 : ℚ), [(2 : ℚ)]) ∈ intervalSelection ⟨["f"], sampleRows⟩ ⟨1, 3, "w"⟩ ↔
        ((1 : ℚ), [(2 : ℚ)]) ∈ (⟨["f"], sampleRows⟩ : FeatureMatrix).rows
          ∧ (1 : ℚ) ≤ 1 ∧ (1 : ℚ) ≤ 3)
    ∧ sliceFeatures ⟨["f"], sampleRows⟩ [⟨1, 3, "w"⟩] .word
      = [sliceEntry ⟨["f"], sampleRows⟩ ⟨1, 3, "w"⟩ .word]
    ∧ (sliceEntry ⟨["f"], sampleRows⟩ ⟨1, 3, "w"⟩ .word).mean
      = (["f"] : List String).zip
          ((colMean ((intervalSelection ⟨["f"], sampleRows⟩ ⟨1, 3, "w"⟩).map Prod.snd)).map
            round6)
    ∧ (sliceEntry ⟨["f"], sampleRows⟩ ⟨1, 3, "w"⟩ .word).mean
      = (sliceEntry ⟨["f"], sampleRows⟩ ⟨1, 3, "w"⟩ .phoneme).mean := by
  refine ⟨by decide, ?_⟩
  exact slice_features_inclusive_mean ⟨["f"], sampleRows⟩ ⟨1, 3, "w"⟩ .word (1, [2])
    (by decide)

/-- C3: during ingestion a phoneme document's `parent_id` is the id of the
first word document (in word order) whose `[start, end)` span contains the
phoneme's start; when no word document contains it the parent is `none`,
and the phoneme document is still built (one document per phoneme entry,
so ingestion succeeds for that phoneme). -/
theorem phoneme_parent_resolution (word_docs : List (ℕ × Doc)) (p : ℚ)
    (file_name : String) (pfs : List IntervalFeatures) (pf : IntervalFeatures) :
    (resolveParent word_docs p = none ↔
      ∀ wd ∈ word_docs, ¬(wd.2.start ≤ p ∧ p < wd.2.stop))
    ∧ (∀ pre wd post, word_docs = pre ++ wd :: post →
        (∀ wd2 ∈ pre, ¬(wd2.2.start ≤ p ∧ p < wd2.2.stop)) →
        wd.2.start ≤ p → p < wd.2.stop →
        resolveParent word_docs p = some wd.1)
    ∧ (mkPhonemeDoc file_name word_docs pf).parent_id
      = resolveParent word_docs pf.start
    ∧ (pfs.map (mkPhonemeDoc file_name word_docs)).length = pfs.length := by
  refine ⟨?_, ?_, rfl, List.length_map _ _⟩
  · rw [resolveParent, Option.map_eq_none', List.find?_eq_none]
    constructor
    · intro h wd hm hc
      have := h wd hm
      simp only [Bool.and_eq_true, decide_eq_true_eq] at this
      exact this ⟨hc.1, hc.2⟩
    · intro h wd hm
      simp only [Bool.and_eq_true, decide_eq_true_eq]
      intro hc
      exact h wd hm ⟨hc.1, hc.2⟩
  · intro pre wd post hdecomp hpre h1 h2
    subst hdecomp
    induction pre with
    | nil =>
      rw [resolveParent, List.nil_append, List.find?_cons_of_pos]
      · rfl
      · simp only [Bool.and_eq_true, decide_eq_true_eq]
        exact ⟨h1, h2⟩
    | cons x rest ih =>
      rw [resolveParent, List.cons_append, List.find?_cons_of_neg]
      · exact ih (fun wd2 hm => hpre wd2 (List.mem_cons_of_mem x hm))
      · simp only [Bool.and_eq_true, decide_eq_true_eq]
        intro hc
        exact hpre x (List.mem_cons_self x rest) ⟨hc.1, hc.2⟩

/-- A word document pair used in the parent-resolution witness. -/
def sampleWordPair : ℕ × Doc :=
  (7, { recording_id := "r", parent_id := none, text := "w", start := 0, stop := 1,
        duration := 1, mean := [], frame_values := [] })

theorem phoneme_parent_resolution_witness :
    (resolveParent [sampleWordPair] (1/2) = none ↔
      ∀ wd ∈ [sampleWordPair], ¬(wd.2.start ≤ (1/2 : ℚ) ∧ (1/2 : ℚ) < wd.2.stop))
    ∧ (∀ pre wd post, [sampleWordPair] = pre ++ wd :: post →
        (∀ wd2 ∈ pre, ¬(wd2.2.start ≤ (1/2 : ℚ) ∧ (1/2 : ℚ) < wd2.2.stop)) →
        wd.2.start ≤ (1/2 : ℚ) → (1/2 : ℚ) < wd.2.stop →
        resolveParent [sampleWordPair] (1/2) = some wd.1)
    ∧ (mkPhonemeDoc "r" [sampleWordPair]
        { text := "p", start := 1/2, stop := 1, mean := [], frame_values := [] }).parent_id
      = resolveParent [sampleWordPair] (1/2)
    ∧ (([] : List IntervalFeatures).map (mkPhonemeDoc "r" [sampleWordPair])).length
      = ([] : List IntervalFeatures).length :=
  phoneme_parent_resolution [sampleWordPair] (1/2) "r" []
    { text := "p", start := 1/2, stop := 1, mean := [], frame_values := [] }

/-- C4: re-ingesting an existing `recording_id` is a no-op detected by the
`recording_exists` check before any work: the store is unchanged and
neither the parser, nor the feature extractor, nor `insert_data` runs, so
the number of recording documents with that id stays the same. -/
theorem process_single_recording_idempotent (db : DBState) (file_name : String)
    (parse_result : Except String (List TgInterval × List TgInterval))
    (extract_result : Except String FeatureMatrix)
    (h : recordingExists db file_name = true) :
    processSingleRecording db file_name parse_result extract_result
      = (db, ⟨false, false, false⟩)
    ∧ ((processSingleRecording db file_name parse_result extract_result).1.recordings.filter
        (fun d => d.2.recording_id == file_name)).length
      = (db.recordings.filter (fun d => d.2.recording_id == file_name)).length := by
  constructor
  · rw [processSingleRecording.eq_def, if_pos h]
  · rw [processSingleRecording.eq_def, if_pos h]

/-- A store that already contains a document for recording "r". -/
def sampleDbWithR : DBState :=
  { recordings := [(0, { recording_id := "r", parent_id := none, text := "recording",
                         start := 0, stop := 1, duration := 1, mean := [],
                         frame_values := [] })],
    words := [], phonemes := [], nextId := 1 }

theorem process_single_recording_idempotent_witness :
    recordingExists sampleDbWithR "r" = true
    ∧ (processSingleRecording sampleDbWithR "r" (.error "") (.error "")
        = (sampleDbWithR, ⟨false, false, false⟩)
      ∧ ((processSingleRecording sampleDbWithR "r" (.error "") (.error "")).1.recordings.filter
          (fun d => d.2.recording_id == "r")).length
        = (sampleDbWithR.recordings.filter (fun d => d.2.recording_id == "r")).length) :=
  ⟨by decide, process_single_recording_idempotent sampleDbWithR "r" (.error "") (.error "")
    (by decide)⟩


theorem listStartsWith_iff [BEq α] [LawfulBEq α] :
    ∀ (n l : List α), listStartsWith n l = true ↔ ∃ t, n ++ t = l
  | [], l => by simp [listStartsWith]
  | a :: as, [] => by simp [listStartsWith]
  | a :: as, b :: bs => by
    rw [listStartsWith]
    simp only [Bool.and_eq_true, beq_iff_eq]
    rw [listStartsWith_iff as bs]
    constructor
    · rintro ⟨rfl, t, rfl⟩
      exact ⟨t, rfl⟩
    · rintro ⟨t, h⟩
      rw [List.cons_append] at h
      injection h with h1 h2
      exact ⟨h1, t, h2⟩

theorem listContainsSub_iff [BEq α] [LawfulBEq α] :
    ∀ (n l : List α), listContainsSub n l = true ↔ n <:+: l
  | n, [] => by
    simp [listContainsSub, List.isEmpty_iff, List.infix_nil]
  | n, b :: bs => by
    rw [listContainsSub, Bool.or_eq_true, listContainsSub_iff n bs,
      listStartsWith_iff n (b :: bs), List.infix_cons_iff]
    rfl

theorem vowelIncluded_iff (t : String) :
    vowelIncluded t = true ↔ ∃ a ∈ allowedPhonemes, a.toList <:+: t.toList := by
  rw [vowelIncluded, List.any_eq_true]
  constructor
  · rintro ⟨a, ha, hc⟩
    exact ⟨a, ha, (listContainsSub_iff _ _).mp hc⟩
  · rintro ⟨a, ha, hc⟩
    exact ⟨a, ha, (listContainsSub_iff _ _).mpr hc⟩

/-- C10: `Database.insert_data` raises `ValueError` for an empty document
batch or for a collection name outside recordings/words/phonemes; the
error is raised before any insertion, so no collection changes (an error
result carries no successor store state). -/
theorem db_insert_data_validation (db : DBState) (collection_name : String)
    (data_list : List Doc)
    (h : data_list = []
      ∨ collection_name ∉ (["recordings", "words", "phonemes"] : List String)) :
    ∃ msg, dbInsertData db collection_name data_list = Except.error msg := by
  rcases h with h | h
  · exact ⟨"Invalid data list. Must be a non-empty list.",
      by rw [dbInsertData, if_pos (by simp [h])]⟩
  · by_cases hd : data_list = []
    · exact ⟨"Invalid data list. Must be a non-empty list.",
        by rw [dbInsertData, if_pos (by simp [hd])]⟩
    · refine ⟨"Invalid collection name: " ++ collection_name ++
        ". Must be recordings, words, or phonemes.", ?_⟩
      simp only [List.mem_cons, List.not_mem_nil, or_false, not_or] at h
      rw [dbInsertData, if_neg (by simp [hd]), if_neg h.1, if_neg h.2.1, if_neg h.2.2]

theorem db_insert_data_validation_witness :
    (([] : List Doc) = []
      ∨ "recordings" ∉ (["recordings", "words", "phonemes"] : List String))
    ∧ ∃ msg, dbInsertData sampleDbWithR "recordings" [] = Except.error msg :=
  ⟨Or.inl rfl, db_insert_data_validation sampleDbWithR "recordings" [] (Or.inl rfl)⟩

/-- The phoneme document used in the vowel-filter scenario. -/
def samplePhonDoc (t : String) : Doc :=
  { recording_id := "r1", parent_id := none, text := t, start := 0, stop := 1,
    duration := 1,
    mean := [("F1frequency_sma3nz", 500), ("F2frequency_sma3nz", 1500)],
    frame_values := [] }

/-- A phonemes collection holding the texts "p", "i", "k". -/
def samplePIK : List (ℕ × Doc) :=
  [(0, samplePhonDoc "p"), (1, samplePhonDoc "i"), (2, samplePhonDoc "k")]

/-- C9: a fetched phoneme appears in the `get_vowels` result exactly when
some allow-listed vowel symbol is a substring of its lowercased text; in
particular, of the phoneme texts "p", "i", "k" only the "i" phoneme's
data is returned. -/
theorem get_vowels_substring_filter {K : Type} [DecidableEq K]
    (phonemes_col : List (ℕ × Doc)) (key : (ℕ × Doc) → K) (ids : List K)
    (e : K × VowelData) :
    (e ∈ getVowels phonemes_col key ids ↔
      ∃ p ∈ phonemes_col, ids.contains (key p) = true
        ∧ (∃ a ∈ allowedPhonemes, a.toList <:+: (strToLower p.2.text).toList)
        ∧ e = (key p, mkVowelData p.2))
    ∧ getVowels samplePIK (fun p => p.2.recording_id) ["r1"]
      = [("r1", mkVowelData (samplePhonDoc "i"))] := by
  constructor
  · rw [getVowels, List.mem_filterMap]
    constructor
    · rintro ⟨p, hp, hsome⟩
      rw [List.mem_filter] at hp
      by_cases hv : vowelIncluded (strToLower p.2.text)
      · rw [if_pos hv] at hsome
        exact ⟨p, hp.1, hp.2, (vowelIncluded_iff _).mp hv,
          (Option.some_inj.mp hsome).symm⟩
      · rw [if_neg hv] at hsome
        exact absurd hsome (by simp)
    · rintro ⟨p, hp, hin, hex, he⟩
      refine ⟨p, List.mem_filter.mpr ⟨hp, hin⟩, ?_⟩
      rw [if_pos ((vowelIncluded_iff _).mpr hex), he]
  · decide

/-- The value of the last pair carrying key `k`, if any: the "later
documents overwrite earlier keys" semantics of repeated dict assignment. -/
def lastValue (k : String) (l : List (String × ℚ)) : Option ℚ :=
  (l.reverse.find? (fun q => q.1 == k)).map Prod.snd

theorem lastValue_cons (k : String) (q : String × ℚ) (rest : List (String × ℚ)) :
    lastValue k (q :: rest)
      = (lastValue k rest).or (if q.1 == k then some q.2 else none) := by
  rw [lastValue, lastValue, List.reverse_cons, List.find?_append]
  cases h : rest.reverse.find? (fun q => q.1 == k) <;>
    by_cases hq : q.1 == k <;>
    simp [List.find?_cons, hq, h]

theorem lastValue_append (k : String) (l1 l2 : List (String × ℚ)) :
    lastValue k (l1 ++ l2) = (lastValue k l2).or (lastValue k l1) := by
  rw [lastValue, lastValue, lastValue, List.reverse_append, List.find?_append]
  cases h : l2.reverse.find? (fun q => q.1 == k) <;> simp [h]

theorem lookup_overwriteMap (k' k : String) (v : ℚ) :
    ∀ d : List (String × ℚ),
      (d.map (fun p => if p.1 == k then (k, v) else p)).lookup k'
        = if k' == k then (if d.any (fun p => p.1 == k) then some v else none)
          else d.lookup k'
  | [] => by by_cases h : k' == k <;> simp [h]
  | (pk, pv) :: rest => by
    have ih := lookup_overwriteMap k' k v rest
    simp only [beq_iff_eq] at ih ⊢
    by_cases hp : pk = k
    · subst hp
      by_cases hk : k' = pk
      · subst hk
        simp [List.lookup_cons, ih]
      · have hkb : (k' == pk) = false := by simpa using hk
        simp [List.lookup_cons, ih, hk, hkb]
    · by_cases hk : k' = k
      · subst hk
        have hpb : (pk == k') = false := by simpa using hp
        have hkpb : (k' == pk) = false := by
          simp only [beq_eq_false_iff_ne, ne_eq]
          exact fun h => hp h.symm
        simp [List.lookup_cons, ih, hp, hkpb]
        rw [hpb, Bool.false_or]
      · by_cases hkp : k' = pk
        · subst hkp
          simp [List.lookup_cons, ih, hk, hp]
        · have hkpb : (k' == pk) = false := by simpa using hkp
          simp [List.lookup_cons, ih, hk, hp, hkp, hkpb]

theorem lookup_dictInsert (d : List (String × ℚ)) (k : String) (v : ℚ) (k' : String) :
    (dictInsert d k v).lookup k' = if k' == k then some v else d.lookup k' := by
  rw [dictInsert]
  by_cases h : d.any (fun p => p.1 == k)
  · rw [if_pos h, lookup_overwriteMap, if_pos h]
  · rw [if_neg h, List.lookup_append]
    by_cases hk : k' == k
    · have hnone : d.lookup k' = none := by
        rw [List.lookup_eq_none_iff]
        intro p hp
        simp only [bne_iff_ne, ne_eq]
        intro heq
        simp only [beq_iff_eq] at hk
        exact h (List.any_eq_true.mpr ⟨p, hp, by simp [← heq, hk]⟩)
      simp [hnone, List.lookup_cons, hk]
    · have hk' : (k' == k) = false := by simpa using hk
      simp [List.lookup_cons, hk', Option.or_none]

theorem lookup_dictUpdate (k : String) :
    ∀ (other d : List (String × ℚ)),
      (dictUpdate d other).lookup k = (lastValue k other).or (d.lookup k)
  | [], d => by simp [dictUpdate, lastValue]
  | q :: rest, d => by
    rw [dictUpdate] at *
    show (rest.foldl (fun acc p => dictInsert acc p.1 p.2) (dictInsert d q.1 q.2)).lookup k
      = (lastValue k (q :: rest)).or (d.lookup k)
    rw [show rest.foldl (fun acc p => dictInsert acc p.1 p.2) (dictInsert d q.1 q.2)
        = dictUpdate (dictInsert d q.1 q.2) rest from rfl,
      lookup_dictUpdate k rest (dictInsert d q.1 q.2), lookup_dictInsert,
      lastValue_cons, Option.or_assoc]
    by_cases hq : k == q.1
    · simp only [beq_iff_eq] at hq
      simp [hq]
    · have : ¬(q.1 == k) = true := by
        simp only [beq_iff_eq] at hq ⊢
        exact fun h => hq h.symm
      simp [hq, this]

theorem lookup_combinedMean (k : String) :
    ∀ (feats : List (List (String × ℚ))) (d : List (String × ℚ)),
      (feats.foldl dictUpdate d).lookup k = (lastValue k feats.flatten).or (d.lookup k)
  | [], d => by simp [lastValue]
  | doc :: rest, d => by
    rw [List.foldl_cons, lookup_combinedMean k rest (dictUpdate d doc),
      lookup_dictUpdate, List.flatten_cons, lastValue_append, Option.or_assoc]

/-- C5 counterexample: a recording contributing no mean features is not
dropped by `prepare_feature_matrix` — its id still shows up as a row key,
so the row set is not "exactly the recording_ids that contribute at least
one mean feature". -/
theorem prepare_feature_matrix_counterexample :
    (prepareFeatureMatrix [("A", []), ("B", [[("f", 1)]])]).map Prod.fst = ["A", "B"]
    ∧ (prepareFeatureMatrix [("A", []), ("B", [[("f", 1)]])]).map Prod.fst ≠ ["B"] := by
  decide

/-- C5 amended: `prepare_feature_matrix` keeps one row per recording_id of
the input mapping, in iteration order — a recording contributing no mean
features still yields a (feature-less) row — and each row merges all of
that recording's mean dictionaries with later documents overwriting
earlier keys on collision. -/
theorem prepare_feature_matrix_rows
    (features_dict : List (String × List (List (String × ℚ))))
    (feats : List (List (String × ℚ))) (k : String) :
    (prepareFeatureMatrix features_dict).map Prod.fst = features_dict.map Prod.fst
    ∧ prepareFeatureMatrix features_dict
      = features_dict.map (fun p => (p.1, combinedMean p.2))
    ∧ (combinedMean feats).lookup k = lastValue k feats.flatten := by
  refine ⟨?_, rfl, ?_⟩
  · simp [prepareFeatureMatrix]
  · rw [combinedMean, lookup_combinedMean, List.lookup_nil, Option.or_none]

/-- A store with one matching document in each collection. -/
def sampleDbC6 : DBState :=
  { recordings := [(0, samplePhonDoc "recording")],
    words := [(1, samplePhonDoc "w")],
    phonemes := [(2, samplePhonDoc "i")],
    nextId := 3 }

/-- C6 counterexample: when the words collection's `delete_many` fails,
`delete_recordings` raises `RuntimeError` instead of returning the
per-collection deleted-count report — the phonemes count (whose deletion
already happened and is kept) is not reported. -/
theorem delete_recordings_counterexample :
    (deleteRecordings sampleDbC6 ["r1"] (fun c => c == "words")).2 = .failure "words"
    ∧ (deleteRecordings sampleDbC6 ["r1"] (fun c => c == "words")).1.phonemes = []
    ∧ (deleteRecordings sampleDbC6 ["r1"] (fun c => c == "words")).1.words
      = sampleDbC6.words := by
  refine ⟨?_, ?_, ?_⟩ <;> decide

/-- C6 amended: on success `delete_recordings` deletes every document
matching the ids from all three collections and returns the
per-collection deleted-count report; when one collection's `delete_many`
fails, a `RuntimeError` is raised instead of a report, the deletions in
collections processed earlier (iteration order phonemes, words,
recordings) are kept — not rolled back — and later collections are left
untouched.  Documents surviving a collection's deletion are exactly those
whose recording_id is outside the id list. -/
theorem delete_recordings_behaviour (db : DBState) (ids : List String)
    (oracle : String → Bool) (docs : List (ℕ × Doc)) (d : ℕ × Doc)
    (hne : ids ≠ []) :
    (oracle "phonemes" = false → oracle "words" = false →
     oracle "recordings" = false →
      deleteRecordings db ids oracle
        = ({ db with phonemes := deleteMatching db.phonemes ids,
                     words := deleteMatching db.words ids,
                     recordings := deleteMatching db.recordings ids },
           .report [("phonemes", countMatching db.phonemes ids),
                    ("words", countMatching db.words ids),
                    ("recordings", countMatching db.recordings ids)]))
    ∧ (oracle "phonemes" = false → oracle "words" = true →
      deleteRecordings db ids oracle
        = ({ db with phonemes := deleteMatching db.phonemes ids },
           .failure "words"))
    ∧ (d ∈ deleteMatching docs ids → ids.contains d.2.recording_id = false) := by
  refine ⟨?_, ?_, ?_⟩
  · intro h1 h2 h3
    rw [deleteRecordings, if_neg (by simpa using hne), if_neg (by simp [h1]),
      if_neg (by simp [h2]), if_neg (by simp [h3])]
  · intro h1 h2
    rw [deleteRecordings, if_neg (by simpa using hne), if_neg (by simp [h1]),
      if_pos (by simp [h2])]
  · intro hd
    rw [deleteMatching, List.mem_filter] at hd
    simpa using hd.2

theorem delete_recordings_behaviour_witness :
    (["r1"] : List String) ≠ []
    ∧ (((fun _ => false) : String → Bool) "phonemes" = false →
       ((fun _ => false) : String → Bool) "words" = false →
       ((fun _ => false) : String → Bool) "recordings" = false →
        deleteRecordings sampleDbC6 ["r1"] (fun _ => false)
          = ({ sampleDbC6 with
                phonemes := deleteMatching sampleDbC6.phonemes ["r1"],
                words := deleteMatching sampleDbC6.words ["r1"],
                recordings := deleteMatching sampleDbC6.recordings ["r1"] },
             .report [("phonemes", countMatching sampleDbC6.phonemes ["r1"]),
                      ("words", countMatching sampleDbC6.words ["r1"]),
                      ("recordings", countMatching sampleDbC6.recordings ["r1"])]))
      ∧ (((fun _ => false) : String → Bool) "phonemes" = false →
         ((fun _ => false) : String → Bool) "words" = true →
          deleteRecordings sampleDbC6 ["r1"] (fun _ => false)
            = ({ sampleDbC6 with
                  phonemes := deleteMatching sampleDbC6.phonemes ["r1"] },
               .failure "words"))
      ∧ ((2, samplePhonDoc "i") ∈ deleteMatching sampleDbC6.phonemes ["r1"] →
          (["r1"] : List String).contains (2, samplePhonDoc "i").2.recording_id
            = false) :=
  ⟨by decide, delete_recordings_behaviour sampleDbC6 ["r1"] (fun _ => false)
    sampleDbC6.phonemes (2, samplePhonDoc "i") (by decide)⟩

theorem sliceFeatures_length (features : FeatureMatrix) (level : Level) :
    ∀ ivs : List TgInterval,
      (sliceFeatures features ivs level).length
        = (ivs.filter (fun iv => !(intervalSelection features iv).isEmpty)).length
  | [] => rfl
  | iv :: rest => by
    rw [sliceFeatures_cons, List.filter_cons]
    by_cases h : (intervalSelection features iv).isEmpty
    · simp [h, sliceFeatures_length features level rest]
    · simp [h, sliceFeatures_length features level rest]

theorem dbInsertData_recordings (db : DBState) (docs : List Doc) (h : docs ≠ []) :
    dbInsertData db "recordings" docs
      = .ok ({ db with recordings := db.recordings ++ List.enumFrom db.nextId docs,
                       nextId := db.nextId + docs.length },
             List.enumFrom db.nextId docs) := by
  rw [dbInsertData, if_neg (by simpa using h), if_pos rfl]

theorem dbInsertData_words (db : DBState) (docs : List Doc) (h : docs ≠ []) :
    dbInsertData db "words" docs
      = .ok ({ db with words := db.words ++ List.enumFrom db.nextId docs,
                       nextId := db.nextId + docs.length },
             List.enumFrom db.nextId docs) := by
  rw [dbInsertData, if_neg (by simpa using h), if_neg (by decide), if_pos rfl]

theorem dbInsertData_phonemes (db : DBState) (docs : List Doc) (h : docs ≠ []) :
    dbInsertData db "phonemes" docs
      = .ok ({ db with phonemes := db.phonemes ++ List.enumFrom db.nextId docs,
                       nextId := db.nextId + docs.length },
             List.enumFrom db.nextId docs) := by
  rw [dbInsertData, if_neg (by simpa using h), if_neg (by decide), if_neg (by decide),
    if_pos rfl]


/-- C8 amended: provided each level's document batch is non-empty (the
recording slice is non-empty and at least one word and one phoneme
interval have a non-empty slice), ingestion succeeds: every
non-empty-slice interval produces exactly one document at its level and
empty-slice intervals are silently dropped, so the stored counts equal
the interval counts minus the empty-slice drops.  (When a whole level's
batch is empty, `Database.insert_data` raises `ValueError` and the
remaining levels are not stored — see the counterexample.) -/
theorem insert_data_coverage (db : DBState) (file_name : String)
    (features : FeatureMatrix) (words phonemes ivs : List TgInterval) (level : Level)
    (hrec : intervalSelection features
      ⟨0, ((words.map (fun w => w.stop)).max?).getD 0, "recording"⟩ ≠ [])
    (hw : sliceFeatures features words .word ≠ [])
    (hp : sliceFeatures features phonemes .phoneme ≠ []) :
    (sliceFeatures features ivs level).length
      = (ivs.filter (fun iv => !(intervalSelection features iv).isEmpty)).length
    ∧ (importerInsertData db file_name features words phonemes).2 = none
    ∧ (importerInsertData db file_name features words phonemes).1.recordings.length
      = db.recordings.length + 1
    ∧ (importerInsertData db file_name features words phonemes).1.words.length
      = db.words.length
        + (words.filter (fun iv => !(intervalSelection features iv).isEmpty)).length
    ∧ (importerInsertData db file_name features words phonemes).1.phonemes.length
      = db.phonemes.length
        + (phonemes.filter (fun iv => !(intervalSelection features iv).isEmpty)).length := by
  have e1 : sliceFeatures features
      [⟨0, ((words.map (fun w => w.stop)).max?).getD 0, "recording"⟩] .recording
      = [sliceEntry features
          ⟨0, ((words.map (fun w => w.stop)).max?).getD 0, "recording"⟩ .recording] := by
    rw [sliceFeatures_cons, if_neg (by simpa using hrec), sliceFeatures_nil]
  have hwd : (sliceFeatures features words .word).map (mkWordDoc file_name) ≠ [] := by
    simpa using hw
  have hpd : (sliceFeatures features phonemes .phoneme).map
      (mkPhonemeDoc file_name (List.enumFrom (db.nextId + 1)
        ((sliceFeatures features words .word).map (mkWordDoc file_name)))) ≠ [] := by
    simpa using hp
  rw [importerInsertData.eq_def]
  simp only [e1, List.head?_cons]
  rw [dbInsertData_recordings _ _ (by simp)]
  simp only [List.length_cons, List.length_nil]
  rw [dbInsertData_words _ _ hwd]
  simp only []
  rw [dbInsertData_phonemes _ _ hpd]
  refine ⟨sliceFeatures_length features level ivs, rfl, ?_, ?_, ?_⟩ <;>
    simp [List.length_append, List.enumFrom_length, sliceFeatures_length]

/-- Ingestion input whose word slice is empty while the phoneme slice is
not: a single frame at t = 0, one word spanning [1, 2], one phoneme
spanning [0, 1]. -/
def cxFeatures : FeatureMatrix := ⟨["f"], [(0, [1])]⟩

/-- The word tier of the coverage counterexample. -/
def cxWords : List TgInterval := [⟨1, 2, "w"⟩]

/-- The phoneme tier of the coverage counterexample. -/
def cxPhonemes : List TgInterval := [⟨0, 1, "p"⟩]

/-- The empty store the coverage counterexample starts from. -/
def cxDb : DBState := ⟨[], [], [], 0⟩

/-- C8 counterexample: the phoneme interval's slice is non-empty, yet no
phoneme document is stored — the word batch is empty, so
`Database.insert_data` raises `ValueError` for the words collection and
ingestion of the recording aborts before the phonemes are inserted,
contradicting "an empty-slice interval is skipped without aborting the
rest of the recording". -/
theorem insert_data_coverage_counterexample :
    intervalSelection cxFeatures ⟨0, 1, "p"⟩ ≠ []
    ∧ (importerInsertData cxDb "r" cxFeatures cxWords cxPhonemes).1.phonemes = []
    ∧ (importerInsertData cxDb "r" cxFeatures cxWords cxPhonemes).2
      = some "Invalid data list. Must be a non-empty list." := by
  refine ⟨by decide, ?_, ?_⟩ <;> decide

theorem insert_data_coverage_witness :
    (intervalSelection cxFeatures
        ⟨0, (((cxPhonemes).map (fun w => w.stop)).max?).getD 0, "recording"⟩ ≠ []
      ∧ sliceFeatures cxFeatures cxPhonemes .word ≠ []
      ∧ sliceFeatures cxFeatures cxPhonemes .phoneme ≠ [])
    ∧ ((sliceFeatures cxFeatures cxPhonemes .phoneme).length
        = (cxPhonemes.filter
            (fun iv => !(intervalSelection cxFeatures iv).isEmpty)).length
      ∧ (importerInsertData cxDb "r" cxFeatures cxPhonemes cxPhonemes).2 = none
      ∧ (importerInsertData cxDb "r" cxFeatures cxPhonemes cxPhonemes).1.recordings.length
        = cxDb.recordings.length + 1
      ∧ (importerInsertData cxDb "r" cxFeatures cxPhonemes cxPhonemes).1.words.length
        = cxDb.words.length
          + (cxPhonemes.filter
              (fun iv => !(intervalSelection cxFeatures iv).isEmpty)).length
      ∧ (importerInsertData cxDb "r" cxFeatures cxPhonemes cxPhonemes).1.phonemes.length
        = cxDb.phonemes.length
          + (cxPhonemes.filter
              (fun iv => !(intervalSelection cxFeatures iv).isEmpty)).length) :=
  ⟨⟨by decide, by decide, by decide⟩,
    insert_data_coverage cxDb "r" cxFeatures cxPhonemes cxPhonemes cxPhonemes .phoneme
      (by decide) (by decide) (by decide)⟩

theorem sum_center_zero (N n : ℕ) (X : Matrix (Fin N) (Fin n) ℚ)
    (hN : (N : ℚ) ≠ 0) (j : Fin n) :
    ∑ i, (X i j - matColMean N n X j) = 0 := by
  rw [Finset.sum_sub_distrib, Finset.sum_const, Finset.card_univ, Fintype.card_fin,
    nsmul_eq_mul, matColMean, mul_comm, div_mul_cancel₀ _ hN, sub_self]

theorem matColMean_standardize (sqrt : ℚ → ℚ) (N n : ℕ)
    (X : Matrix (Fin N) (Fin n) ℚ) (hN : (N : ℚ) ≠ 0) (j : Fin n) :
    matColMean N n (standardize sqrt N n X) j = 0 := by
  show (∑ i, (X i j - matColMean N n X j) / scalerScale sqrt N n X j) / (N : ℚ) = 0
  rw [← Finset.sum_div, sum_center_zero N n X hN j, zero_div, zero_div]

theorem mulVec_dotProduct_eq (n : ℕ) (V : Matrix (Fin n) (Fin n) ℚ)
    (hV : V.transpose * V = 1) (x y : Fin n → ℚ) :
    ∑ j, (V.mulVec x) j * (V.mulVec y) j = ∑ j, x j * y j := by
  have h1 : Matrix.dotProduct (V.mulVec x) (V.mulVec y) = Matrix.dotProduct x y := by
    have h0 : V.mulVec x = Matrix.vecMul x V.transpose := (Matrix.vecMul_transpose V x).symm
    rw [h0, Matrix.dotProduct_mulVec, Matrix.vecMul_vecMul, hV, Matrix.vecMul_one]
  simpa [Matrix.dotProduct] using h1

theorem cosineSim_mulVec (sqrt : ℚ → ℚ) (n : ℕ) (V : Matrix (Fin n) (Fin n) ℚ)
    (hV : V.transpose * V = 1) (x y : Fin n → ℚ) :
    cosineSim sqrt n (V.mulVec x) (V.mulVec y) = cosineSim sqrt n x y := by
  unfold cosineSim rowNormFactor
  rw [mulVec_dotProduct_eq n V hV x y, mulVec_dotProduct_eq n V hV x x,
    mulVec_dotProduct_eq n V hV y y]

/-- C7: on a matrix where PCA retains all variance (at most 10 features,
so the fitted component matrix is square, and orthogonal — `normalize_and_reduce`
keeps `min(10, feature_count)` components), the ranking produced by
`analyze_scores` with method `pca_cosine_distance` (stable-sorted ascending
by distance `1 - similarity`) lists the same recordings in the same order
as the ranking produced by method `cosine` (stable-sorted descending by
similarity) for the same target and `top_n`. -/
theorem analyze_scores_pca_matches_cosine
    (N n : ℕ) (sqrt : ℚ → ℚ) (X : Matrix (Fin N) (Fin n) ℚ)
    (ids : Fin N → String) (V : Matrix (Fin n) (Fin n) ℚ)
    (target : String) (top_n : ℕ) (t : Fin N)
    (hn : 0 < n) (hn10 : n ≤ 10) (hV : V.transpose * V = 1)
    (ht : idxMapLookup N ids target = some t) :
    (analyzeScoresPcaDistance N n sqrt X ids V target top_n).map
        (fun r => r.2.map Prod.fst)
      = (analyzeScoresCosine N n sqrt X ids target top_n).map
        (fun r => r.2.map Prod.fst) := by
  have hN : N ≠ 0 := (Fin.pos t).ne'
  have hNQ : (N : ℚ) ≠ 0 := Nat.cast_ne_zero.mpr hN
  have hcond : ¬(N = 0 ∨ n = 0) := by
    push_neg
    exact ⟨hN, by omega⟩
  have hXp : ∀ i : Fin N,
      pcaTransformRow n V (matColMean N n (standardize sqrt N n X))
        ((standardize sqrt N n X) i)
        = V.mulVec ((standardize sqrt N n X) i) := by
    intro i
    have harg : (fun j => standardize sqrt N n X i j
        - matColMean N n (standardize sqrt N n X) j) = standardize sqrt N n X i := by
      funext j
      rw [matColMean_standardize sqrt N n X hNQ j, sub_zero]
    show V.mulVec (fun j => standardize sqrt N n X i j
        - matColMean N n (standardize sqrt N n X) j)
      = V.mulVec (standardize sqrt N n X i)
    rw [harg]
  have hcos : ∀ i i' : Fin N,
      cosineSim sqrt n
        (pcaTransformRow n V (matColMean N n (standardize sqrt N n X))
          ((standardize sqrt N n X) i))
        (pcaTransformRow n V (matColMean N n (standardize sqrt N n X))
          ((standardize sqrt N n X) i'))
        = cosineSim sqrt n ((standardize sqrt N n X) i) ((standardize sqrt N n X) i') := by
    intro i i'
    rw [hXp i, hXp i', cosineSim_mulVec sqrt n V hV]
  have hpairs : simPairs N ids
      (fun i => 1 - cosineSim sqrt n
        (pcaTransformRow n V (matColMean N n (standardize sqrt N n X))
          ((standardize sqrt N n X) t))
        (pcaTransformRow n V (matColMean N n (standardize sqrt N n X))
          ((standardize sqrt N n X) i))) t
      = (simPairs N ids
          (fun i => cosineSim sqrt n ((standardize sqrt N n X) t)
            ((standardize sqrt N n X) i)) t).map (fun p => (p.1, 1 - p.2)) := by
    unfold simPairs
    rw [List.map_map]
    apply List.map_congr_left
    intro i _
    simp [hcos t i]
  have hsort : sortAscendingBySecond ((simPairs N ids
        (fun i => cosineSim sqrt n ((standardize sqrt N n X) t)
          ((standardize sqrt N n X) i)) t).map (fun p => (p.1, 1 - p.2)))
      = (sortDescendingBySecond (simPairs N ids
          (fun i => cosineSim sqrt n ((standardize sqrt N n X) t)
            ((standardize sqrt N n X) i)) t)).map (fun p => (p.1, 1 - p.2)) := by
    unfold sortAscendingBySecond sortDescendingBySecond
    rw [← List.map_mergeSort]
    intro a _ b _
    simp only []
    rw [decide_eq_decide]
    constructor
    · intro hba
      simpa using sub_le_sub_left hba 1
    · intro h1
      have := sub_le_sub_left h1 (1 : ℚ)
      simpa using this
  have hfinal : (((sortAscendingBySecond (simPairs N ids
        (fun i => 1 - cosineSim sqrt n
          (pcaTransformRow n V (matColMean N n (standardize sqrt N n X))
            ((standardize sqrt N n X) t))
          (pcaTransformRow n V (matColMean N n (standardize sqrt N n X))
            ((standardize sqrt N n X) i))) t)).take top_n).map Prod.fst : List String)
      = (((sortDescendingBySecond (simPairs N ids
          (fun i => cosineSim sqrt n ((standardize sqrt N n X) t)
            ((standardize sqrt N n X) i)) t)).take top_n).map Prod.fst : List String) := by
    rw [hpairs, hsort, ← List.map_take, List.map_map]
    apply List.map_congr_left
    intro p _
    rfl
  have hL : analyzeScoresPcaDistance N n sqrt X ids V target top_n
      = some (target, (sortAscendingBySecond (simPairs N ids
          (fun i => 1 - cosineSim sqrt n
            (pcaTransformRow n V (matColMean N n (standardize sqrt N n X))
              ((standardize sqrt N n X) t))
            (pcaTransformRow n V (matColMean N n (standardize sqrt N n X))
              ((standardize sqrt N n X) i))) t)).take top_n) := by
    rw [analyzeScoresPcaDistance, if_neg hcond, ht]
  have hR : analyzeScoresCosine N n sqrt X ids target top_n
      = some (target, (sortDescendingBySecond (simPairs N ids
          (fun i => cosineSim sqrt n ((standardize sqrt N n X) t)
            ((standardize sqrt N n X) i)) t)).take top_n) := by
    rw [analyzeScoresCosine, ht]
  rw [hL, hR]
  simp only [Option.map_some']
  rw [hfinal]

theorem analyze_scores_pca_matches_cosine_witness :
    ((0 : ℕ) < 1 ∧ (1 : ℕ) ≤ 10
      ∧ (1 : Matrix (Fin 1) (Fin 1) ℚ).transpose * 1 = 1
      ∧ idxMapLookup 1 (fun _ => "a") "a" = some 0)
    ∧ (analyzeScoresPcaDistance 1 1 id (1 : Matrix (Fin 1) (Fin 1) ℚ)
        (fun _ => "a") (1 : Matrix (Fin 1) (Fin 1) ℚ) "a" 5).map
          (fun r => r.2.map Prod.fst)
      = (analyzeScoresCosine 1 1 id (1 : Matrix (Fin 1) (Fin 1) ℚ)
          (fun _ => "a") "a" 5).map (fun r => r.2.map Prod.fst) :=
  ⟨⟨by decide, by decide, by simp, by decide⟩,
    analyze_scores_pca_matches_cosine 1 1 id 1 (fun _ => "a") 1 "a" 5 0
      (by decide) (by decide) (by simp) (by decide)⟩
